import Mathlib

/- Verification development for the currency converter service.

   The embedding models the JavaScript number semantics the code relies on
   (NaN, the infinities, and finite values as exact rationals), the string
   utilities the code calls, the validation module, the converter module,
   the request handler, and the CSV-to-catalog build step.  The generated
   exchange-rate data module is not part of the sources, so the catalog is
   a parameter everywhere it is consumed. -/

/-- Model of a JavaScript number: NaN, the two infinities, or a finite
value represented by an exact rational. -/
inductive JSNum where
  | nan
  | posInf
  | negInf
  | fin (q : ℚ)
deriving DecidableEq

instance {ε α : Type} [DecidableEq ε] [DecidableEq α] : DecidableEq (Except ε α) := fun a b =>
  match a, b with
  | .ok x, .ok y => if h : x = y then .isTrue (by simp [h]) else .isFalse (by simp [h])
  | .error x, .error y => if h : x = y then .isTrue (by simp [h]) else .isFalse (by simp [h])
  | .ok _, .error _ => .isFalse (by simp)
  | .error _, .ok _ => .isFalse (by simp)

/-- JavaScript isNaN on a number. -/
def jsIsNaN : JSNum → Bool
  | .nan => true
  | _ => false

/-- Number.isFinite: true exactly on finite values. -/
def jsFinite : JSNum → Bool
  | .fin _ => true
  | _ => false

/-- JavaScript comparison a <= b; false whenever either side is NaN. -/
def jsLe : JSNum → JSNum → Bool
  | .nan, _ => false
  | _, .nan => false
  | .negInf, _ => true
  | _, .posInf => true
  | .posInf, _ => false
  | .fin _, .negInf => false
  | .fin a, .fin b => decide (a ≤ b)

/-- JavaScript comparison a < b; false whenever either side is NaN. -/
def jsLt : JSNum → JSNum → Bool
  | .nan, _ => false
  | _, .nan => false
  | .posInf, _ => false
  | .negInf, .negInf => false
  | .negInf, _ => true
  | .fin _, .posInf => true
  | .fin _, .negInf => false
  | .fin a, .fin b => decide (a < b)

/-- Kernel-computable rational multiplication (the library operation is
not reducible by the kernel); proved equal to it below. -/
def ratMul (a b : ℚ) : ℚ := mkRat (a.num * b.num) (a.den * b.den)

/-- Kernel-computable rational addition; proved equal to the library
operation below. -/
def ratAdd (a b : ℚ) : ℚ := mkRat (a.num * b.den + b.num * a.den) (a.den * b.den)

/-- Kernel-computable rational inverse; proved equal to the library
operation below. -/
def ratInv (q : ℚ) : ℚ := Rat.divInt (q.den : Int) q.num

/-- Kernel-computable rational division; proved equal to the library
operation below. -/
def ratDiv (a b : ℚ) : ℚ := ratMul a (ratInv b)

/-- Kernel-computable floor; proved equal to the library floor below. -/
def ratFloor (q : ℚ) : Int := q.num / q.den

theorem ratMul_eq (a b : ℚ) : ratMul a b = a * b := by
  rw [ratMul, Rat.mul_def, Rat.normalize_eq_mkRat]

theorem ratAdd_eq (a b : ℚ) : ratAdd a b = a + b := by
  rw [ratAdd, Rat.add_def, Rat.normalize_eq_mkRat]

theorem ratInv_eq (q : ℚ) : ratInv q = q⁻¹ := (Rat.inv_def' q).symm

theorem ratDiv_eq (a b : ℚ) : ratDiv a b = a / b := by
  rw [ratDiv, ratMul_eq, ratInv_eq, div_eq_mul_inv]

theorem ratFloor_eq (q : ℚ) : ratFloor q = ⌊q⌋ := (Rat.floor_def).symm

/-- JavaScript multiplication on numbers. -/
def jsMul : JSNum → JSNum → JSNum
  | .nan, _ => .nan
  | _, .nan => .nan
  | .posInf, .posInf => .posInf
  | .posInf, .negInf => .negInf
  | .negInf, .posInf => .negInf
  | .negInf, .negInf => .posInf
  | .posInf, .fin q => if q = 0 then .nan else if 0 < q then .posInf else .negInf
  | .fin q, .posInf => if q = 0 then .nan else if 0 < q then .posInf else .negInf
  | .negInf, .fin q => if q = 0 then .nan else if 0 < q then .negInf else .posInf
  | .fin q, .negInf => if q = 0 then .nan else if 0 < q then .negInf else .posInf
  | .fin a, .fin b => .fin (ratMul a b)

/-- JavaScript division on numbers (division by zero yields an infinity,
0/0 and inf/inf yield NaN; zero is modelled as +0). -/
def jsDiv : JSNum → JSNum → JSNum
  | .nan, _ => .nan
  | _, .nan => .nan
  | .posInf, .posInf => .nan
  | .posInf, .negInf => .nan
  | .negInf, .posInf => .nan
  | .negInf, .negInf => .nan
  | .posInf, .fin q => if 0 ≤ q then .posInf else .negInf
  | .negInf, .fin q => if 0 ≤ q then .negInf else .posInf
  | .fin _, .posInf => .fin 0
  | .fin _, .negInf => .fin 0
  | .fin a, .fin b =>
    if b = 0 then (if a = 0 then .nan else if 0 < a then .posInf else .negInf)
    else .fin (ratDiv a b)

/-- JavaScript Math.round: round half toward positive infinity. -/
def jsRound : JSNum → JSNum
  | .nan => .nan
  | .posInf => .posInf
  | .negInf => .negInf
  | .fin q => .fin ((ratFloor (ratAdd q (mkRat 1 2)) : ℤ) : ℚ)

theorem jsMul_fin (a b : ℚ) : jsMul (.fin a) (.fin b) = .fin (a * b) := by
  rw [jsMul, ratMul_eq]

theorem jsDiv_fin (a b : ℚ) (hb : b ≠ 0) : jsDiv (.fin a) (.fin b) = .fin (a / b) := by
  rw [jsDiv, if_neg hb, ratDiv_eq]

theorem jsRound_fin (q : ℚ) : jsRound (.fin q) = .fin ((⌊q + 1/2⌋ : ℤ) : ℚ) := by
  have h2 : (mkRat 1 2 : ℚ) = 1/2 := by norm_num
  rw [jsRound, ratAdd_eq, ratFloor_eq, h2]

/- ---------- string helpers modelling the JavaScript builtins ---------- -/

/-- Whitespace characters recognised when trimming / parsing numbers. -/
def isJsWhitespace (c : Char) : Bool :=
  c = ' ' || c = '\t' || c = '\n' || c = '\r'

/-- Model of String.prototype.trim. -/
def jsTrim (s : String) : String :=
  String.mk (((s.data.dropWhile isJsWhitespace).reverse.dropWhile isJsWhitespace).reverse)

/-- Model of Array.prototype.join with a fixed separator of comma-space. -/
def joinComma : List String → String
  | [] => ""
  | [s] => s
  | s :: rest => s ++ ", " ++ joinComma rest

/-- Split a character list at newline characters. -/
def splitNewlineGo : List Char → List Char → List String
  | [], cur => [String.mk cur.reverse]
  | c :: cs, cur =>
    if c = '\n' then String.mk cur.reverse :: splitNewlineGo cs []
    else splitNewlineGo cs (c :: cur)

/-- Model of s.split(newline) as used by the build step. -/
def splitNewline (s : String) : List String :=
  splitNewlineGo s.data []

/- ---------- model of the JavaScript parseFloat builtin ---------- -/

def isAsciiDigit (c : Char) : Bool := '0' ≤ c && c ≤ '9'

/-- Longest digit prefix of a character list, with the remainder. -/
def takeDigits : List Char → List Char × List Char
  | [] => ([], [])
  | c :: cs =>
    if isAsciiDigit c then
      let p := takeDigits cs
      (c :: p.1, p.2)
    else ([], c :: cs)

/-- Numeric value of a digit list. -/
def digitsToNat (ds : List Char) : Nat :=
  ds.foldl (fun acc c => 10 * acc + (c.toNat - 48)) 0

/-- Parse an optionally signed digit run for an exponent; an exponent
marker not followed by digits is ignored (value 0). -/
def parseSignedDigits (cs : List Char) : Int :=
  match cs with
  | '-' :: r => let ds := (takeDigits r).1; if ds.isEmpty then 0 else -(digitsToNat ds : Int)
  | '+' :: r => let ds := (takeDigits r).1; if ds.isEmpty then 0 else (digitsToNat ds : Int)
  | r => let ds := (takeDigits r).1; if ds.isEmpty then 0 else (digitsToNat ds : Int)

/-- Parse an exponent part if present. -/
def parseExpPart (cs : List Char) : Int :=
  match cs with
  | 'e' :: rest => parseSignedDigits rest
  | 'E' :: rest => parseSignedDigits rest
  | _ => 0

/-- Scale a rational by a power of ten. -/
def applyExp (q : ℚ) (e : Int) : ℚ :=
  if 0 ≤ e then ratMul q ((10 ^ e.toNat : Nat) : ℚ) else ratDiv q ((10 ^ (-e).toNat : Nat) : ℚ)

/-- Parse an unsigned decimal mantissa with optional fraction and
exponent; none when no digit is present. -/
def parseMantissa (cs : List Char) : Option ℚ :=
  let p := takeDigits cs
  match p.2 with
  | '.' :: r2 =>
    let pf := takeDigits r2
    if p.1.isEmpty && pf.1.isEmpty then none
    else
      let base : ℚ :=
        ratAdd (digitsToNat p.1 : ℚ) (ratDiv (digitsToNat pf.1 : ℚ) ((10 ^ pf.1.length : Nat) : ℚ))
      some (applyExp base (parseExpPart pf.2))
  | _ =>
    if p.1.isEmpty then none
    else some (applyExp ((digitsToNat p.1 : ℚ)) (parseExpPart p.2))

/-- Does a character list start with the word Infinity? -/
def startsWithInfinity : List Char → Bool
  | 'I' :: 'n' :: 'f' :: 'i' :: 'n' :: 'i' :: 't' :: 'y' :: _ => true
  | _ => false

/-- Sign handling for parseFloat. -/
def parseFloatSigned (cs : List Char) : JSNum :=
  match cs with
  | '-' :: rest =>
    if startsWithInfinity rest then .negInf
    else match parseMantissa rest with
      | some q => .fin (-q)
      | none => .nan
  | '+' :: rest =>
    if startsWithInfinity rest then .posInf
    else match parseMantissa rest with
      | some q => .fin q
      | none => .nan
  | rest =>
    if startsWithInfinity rest then .posInf
    else match parseMantissa rest with
      | some q => .fin q
      | none => .nan

/-- Model of the JavaScript parseFloat builtin: skip leading whitespace,
then parse the longest valid decimal-literal prefix (including the
Infinity literals); NaN when there is none. -/
def parseFloat (s : String) : JSNum :=
  parseFloatSigned (s.data.dropWhile isJsWhitespace)

/- ---------- data model ---------- -/

/-- An exchange-rate catalog entry (src/types.ts ExchangeRateData); the
effective date is optional because the build step stores whatever the row
yields, including an absent field. -/
structure ExchangeRateData where
  currencyName : String
  rate : JSNum
  effectiveDate : Option String
deriving DecidableEq

/-- The in-memory rate catalog: a JavaScript Map modelled as an
association list in insertion order. -/
abbrev CurrencyMap := List (String × ExchangeRateData)

/-- Map.get: first binding of the key, if any. -/
def mapGet (m : CurrencyMap) (k : String) : Option ExchangeRateData :=
  match m with
  | [] => none
  | (k2, v) :: rest => if k2 = k then some v else mapGet rest k

/-- Map.has. -/
def mapHas (m : CurrencyMap) (k : String) : Bool :=
  (mapGet m k).isSome

/-- A validated conversion request (src/types.ts ConversionRequest); the
source field names are amount, from, to. -/
structure ConversionRequest where
  amount : JSNum
  fromCur : String
  toCur : String
deriving DecidableEq

/-- A field-level validation error (src/types.ts ValidationError). -/
structure ValidationError where
  field : String
  message : String
deriving DecidableEq

/-- The validation result sum type (src/types.ts ValidationResult). -/
inductive ValidationResult where
  | valid (data : ConversionRequest)
  | invalid (errors : List ValidationError)
deriving DecidableEq

/-- The anchor currency name (constant USD_CURRENCY in the sources). -/
def USD_CURRENCY : String := "United States-Dollar"

/- ---------- validation module (src/utils/validation.ts) ---------- -/

/-- A query parameter is missing when it is absent or the empty string
(JavaScript falsiness of a nullable string). -/
def isParamMissing : Option String → Bool
  | none => true
  | some s => s = ""

/-- Names of the missing parameters, in the order the source checks them. -/
def missingList (amountStr fromP toP : Option String) : List String :=
  (if isParamMissing amountStr then ["amount"] else []) ++
  (if isParamMissing fromP then ["from"] else []) ++
  (if isParamMissing toP then ["to"] else [])

/-- Errors contributed by the amount checks. -/
def amountErrorsOf (amount : JSNum) : List ValidationError :=
  if jsIsNaN amount then [⟨"amount", "Amount must be a valid number"⟩]
  else if jsLe amount (.fin 0) then [⟨"amount", "Amount must be greater than 0"⟩]
  else []

/-- Error contributed by the from-membership check. -/
def fromErrorsOf (rates : CurrencyMap) (fromP : Option String) : List ValidationError :=
  if isParamMissing fromP = false ∧ mapHas rates (fromP.getD "") = false then
    [⟨"from", "Currency \x27" ++ fromP.getD "" ++ "\x27 is not supported"⟩]
  else []

/-- Error contributed by the to-membership check. -/
def toErrorsOf (rates : CurrencyMap) (toP : Option String) : List ValidationError :=
  if isParamMissing toP = false ∧ mapHas rates (toP.getD "") = false then
    [⟨"to", "Currency \x27" ++ toP.getD "" ++ "\x27 is not supported"⟩]
  else []

/-- Error contributed by the anchor-pair rule. -/
def currencyErrorsOf (fromP toP : Option String) : List ValidationError :=
  if isParamMissing fromP = false ∧ isParamMissing toP = false ∧
      fromP.getD "" ≠ USD_CURRENCY ∧ toP.getD "" ≠ USD_CURRENCY then
    [⟨"currencies", "Only conversions involving \x27" ++ USD_CURRENCY ++ "\x27 are supported"⟩]
  else []

/-- validateQueryParams from src/utils/validation.ts.  The URL-parameter
extraction is modelled by handing the three decoded query parameters as
optional strings; the catalog the source imports is a parameter. -/
def validateQueryParams (rates : CurrencyMap) (amountStr fromP toP : Option String) :
    ValidationResult :=
  let missingParams := missingList amountStr fromP toP
  if missingParams.length > 0 then
    .invalid [⟨"parameters", "Missing required parameters: " ++ joinComma missingParams⟩]
  else
    let amount := parseFloat (amountStr.getD "")
    let errors :=
      amountErrorsOf amount ++ fromErrorsOf rates fromP ++ toErrorsOf rates toP ++
        currencyErrorsOf fromP toP
    if errors.length > 0 then .invalid errors
    else .valid ⟨amount, fromP.getD "", toP.getD ""⟩

/-- isCurrencySupported from src/utils/validation.ts. -/
def isCurrencySupported (rates : CurrencyMap) (currencyName : String) : Bool :=
  mapHas rates currencyName

/-- isUSDPair from src/utils/validation.ts. -/
def isUSDPair (fromCur toCur : String) : Bool :=
  fromCur = USD_CURRENCY || toCur = USD_CURRENCY

/-- isValidAmount from src/utils/validation.ts. -/
def isValidAmount (amount : JSNum) : Bool :=
  !(jsIsNaN amount) && jsLt (.fin 0) amount

/- ---------- converter module (src/utils/converter.ts) ---------- -/

/-- roundToTwoDecimals from src/utils/converter.ts. -/
def roundToTwoDecimals (value : JSNum) : JSNum :=
  jsDiv (jsRound (jsMul value (.fin 100))) (.fin 100)

/-- convert from src/utils/converter.ts; a thrown Error is modelled as
the Except error carrying the message. -/
def convert (rates : CurrencyMap) (amount : JSNum) (fromCur toCur : String) :
    Except String JSNum :=
  if fromCur = toCur then .ok (roundToTwoDecimals amount)
  else
    match mapGet rates fromCur, mapGet rates toCur with
    | none, _ => .error ("Currency \x27" ++ fromCur ++ "\x27 not found in exchange rates")
    | some _, none => .error ("Currency \x27" ++ toCur ++ "\x27 not found in exchange rates")
    | some fromRate, some toRate =>
      if fromCur ≠ USD_CURRENCY ∧ toCur ≠ USD_CURRENCY then
        .error ("Only conversions involving \x27" ++ USD_CURRENCY ++ "\x27 are supported")
      else if fromCur = USD_CURRENCY then
        .ok (roundToTwoDecimals (jsMul amount toRate.rate))
      else if toCur = USD_CURRENCY then
        .ok (roundToTwoDecimals (jsDiv amount fromRate.rate))
      else .error "Invalid conversion pair"

/-- getEffectiveRate from src/utils/converter.ts. -/
def getEffectiveRate (rates : CurrencyMap) (fromCur toCur : String) : Option JSNum :=
  if fromCur = toCur then some (.fin 1)
  else
    match mapGet rates fromCur, mapGet rates toCur with
    | some fromRate, some toRate =>
      if fromCur = USD_CURRENCY then some toRate.rate
      else if toCur = USD_CURRENCY then some (jsDiv (.fin 1) fromRate.rate)
      else none
    | _, _ => none

/- ---------- request handler (src/handlers/convertHandler.ts) ---------- -/

/-- The observable part of the handler response: status code, the two
message fields, and the numeric payload (headers and timestamp are not
modelled by any claim). -/
structure HandlerResponse where
  status : Nat
  error : Option String
  message : Option String
  convertedAmount : Option JSNum
  rate : Option JSNum
deriving DecidableEq

/-- handleConvert from src/handlers/convertHandler.ts, on an already
parsed URL (the three decoded query parameters). -/
def handleConvert (rates : CurrencyMap) (amountStr fromP toP : Option String) :
    HandlerResponse :=
  match validateQueryParams rates amountStr fromP toP with
  | .invalid errors =>
    let m0 := (errors.head?.map (fun e => e.message)).getD ""
    { status := 400, error := some "Invalid parameters",
      message := some (if m0 = "" then "Invalid request parameters" else m0),
      convertedAmount := none, rate := none }
  | .valid d =>
    match convert rates d.amount d.fromCur d.toCur with
    | .error e =>
      { status := 500, error := some "Conversion failed", message := some e,
        convertedAmount := none, rate := none }
    | .ok c =>
      { status := 200, error := none, message := none,
        convertedAmount := some c,
        rate := some ((getEffectiveRate rates d.fromCur d.toCur).getD (.fin 1)) }

/- ---------- build step (scripts convertCSVToJSON) ---------- -/

/-- Character-level worker for parseCSVLine: quotes toggle the in-quotes
flag, unquoted commas split, every field is trimmed. -/
def parseCSVLineGo : List Char → Bool → List Char → List String
  | [], _, cur => [jsTrim (String.mk cur.reverse)]
  | c :: cs, inQ, cur =>
    if c = '"' then parseCSVLineGo cs (!inQ) cur
    else if c = ',' && !inQ then jsTrim (String.mk cur.reverse) :: parseCSVLineGo cs inQ []
    else parseCSVLineGo cs inQ (c :: cur)

/-- parseCSVLine from the build script. -/
def parseCSVLine (line : String) : List String :=
  parseCSVLineGo line.data false []

/-- The header column indices the build script looks up. -/
structure CSVColumns where
  recordDateIndex : Nat
  currencyNameIndex : Nat
  exchangeRateIndex : Nat
  effectiveDateIndex : Nat

/-- One iteration of the build-script row loop. -/
def processLine (cols : CSVColumns) (m : CurrencyMap) (rawLine : String) : CurrencyMap :=
  let line := jsTrim rawLine
  if line = "" then m
  else
    let fields := parseCSVLine line
    if fields.length < 5 then m
    else
      let recordDate := fields[cols.recordDateIndex]?
      let currencyName := (fields[cols.currencyNameIndex]?).getD ""
      let exchangeRateStr := (fields[cols.exchangeRateIndex]?).getD ""
      let effectiveDate := fields[cols.effectiveDateIndex]?
      if recordDate ≠ some "2025-12-31" ∨ currencyName = "" then m
      else
        let rate := parseFloat exchangeRateStr
        if jsIsNaN rate then m
        else if mapHas m currencyName then m
        else m ++ [(currencyName, ⟨currencyName, rate, effectiveDate⟩)]

/-- The row loop of the build script. -/
def buildRates (cols : CSVColumns) (lines : List String) : CurrencyMap :=
  lines.foldl (processLine cols) []

/-- The special-case insertion of the anchor currency after the loop:
only when the anchor is not already present. -/
def forceInsertUSD (m : CurrencyMap) : CurrencyMap :=
  if mapHas m USD_CURRENCY then m
  else m ++ [(USD_CURRENCY, ⟨USD_CURRENCY, .fin 1, some "2025-12-31"⟩)]

/-- convertCSVToJSON from the build script, restricted to the catalog it
constructs (file output and logging are not modelled): split into lines,
locate the four required header columns (error when one is absent), run
the row loop over the remaining lines, then force-insert the anchor. -/
def convertCSVToJSON (csvContent : String) : Except String CurrencyMap :=
  let lines := splitNewline csvContent
  let header := parseCSVLine (lines.headD "")
  match header.findIdx? (· == "Record Date"),
      header.findIdx? (· == "Country - Currency Description"),
      header.findIdx? (· == "Exchange Rate"),
      header.findIdx? (· == "Effective Date") with
  | some r, some c, some e, some f =>
    .ok (forceInsertUSD (buildRates ⟨r, c, e, f⟩ (lines.drop 1)))
  | _, _, _, _ => .error "CSV header is missing required columns"

/- ---------- helper lemmas ---------- -/

/-- Exact value of rounding a finite number to two decimals. -/
def round2q (q : ℚ) : ℚ := ((⌊q * 100 + 1/2⌋ : ℤ) : ℚ) / 100

theorem roundToTwoDecimals_fin (q : ℚ) :
    roundToTwoDecimals (.fin q) = .fin (round2q q) := by
  rw [roundToTwoDecimals, jsMul_fin, jsRound_fin, jsDiv_fin _ _ (by norm_num), round2q]

theorem abs_floorRound_sub_le (y : ℚ) : |((⌊y + 1/2⌋ : ℤ) : ℚ) - y| ≤ 1/2 := by
  have h1 : ((⌊y + 1/2⌋ : ℤ) : ℚ) ≤ y + 1/2 := Int.floor_le _
  have h2 : y + 1/2 - 1 < ((⌊y + 1/2⌋ : ℤ) : ℚ) := Int.sub_one_lt_floor _
  rw [abs_le]
  constructor <;> linarith

theorem abs_round2q_sub_le (q : ℚ) : |round2q q - q| ≤ 1/200 := by
  have h := abs_floorRound_sub_le (q * 100)
  have he : round2q q - q = (((⌊q * 100 + 1/2⌋ : ℤ) : ℚ) - q * 100) / 100 := by
    rw [round2q]; ring
  rw [he, abs_div, abs_of_pos (by norm_num : (0:ℚ) < 100)]
  linarith

theorem mapGet_of_has {m : CurrencyMap} {k : String} (h : mapHas m k = true) :
    ∃ v, mapGet m k = some v := by
  rw [mapHas] at h
  exact Option.isSome_iff_exists.mp h

theorem mapGet_append_single (m : CurrencyMap) (k : String) (v : ExchangeRateData)
    (h : mapGet m k = none) : mapGet (m ++ [(k, v)]) k = some v := by
  induction m with
  | nil => simp [mapGet]
  | cons p rest ih =>
    obtain ⟨k2, v2⟩ := p
    by_cases hk : k2 = k
    · rw [mapGet, if_pos hk] at h
      cases h
    · rw [mapGet, if_neg hk] at h
      rw [List.cons_append, mapGet, if_neg hk]
      exact ih h

theorem forceInsertUSD_has (m0 : CurrencyMap) :
    mapHas (forceInsertUSD m0) USD_CURRENCY = true := by
  rw [forceInsertUSD]
  split_ifs with h
  · exact h
  · have hn : mapGet m0 USD_CURRENCY = none := by
      rw [mapHas] at h
      exact Option.not_isSome_iff_eq_none.mp (by simp_all)
    rw [mapHas, mapGet_append_single m0 _ _ hn]
    rfl

theorem forceInsertUSD_get_of_absent (m0 : CurrencyMap)
    (h : mapHas m0 USD_CURRENCY = false) :
    mapGet (forceInsertUSD m0) USD_CURRENCY =
      some ⟨USD_CURRENCY, .fin 1, some "2025-12-31"⟩ := by
  have hn : mapGet m0 USD_CURRENCY = none := by
    rw [mapHas] at h
    exact Option.not_isSome_iff_eq_none.mp (by simp_all)
  rw [forceInsertUSD, if_neg (by simp [h]), mapGet_append_single m0 _ _ hn]

theorem missingList_flags {a f t : Option String} (h : missingList a f t = []) :
    isParamMissing a = false ∧ isParamMissing f = false ∧ isParamMissing t = false := by
  rw [missingList] at h
  refine ⟨?_, ?_, ?_⟩
  · cases hx : isParamMissing a
    · rfl
    · rw [hx] at h; simp at h
  · cases hx : isParamMissing f
    · rfl
    · rw [hx] at h; simp at h
  · cases hx : isParamMissing t
    · rfl
    · rw [hx] at h; simp at h

theorem missingList_pos {a f t : Option String}
    (h : (isParamMissing a || isParamMissing f || isParamMissing t) = true) :
    (missingList a f t).length > 0 := by
  rw [missingList]
  cases hx : isParamMissing a <;> cases hy : isParamMissing f <;>
    cases hz : isParamMissing t <;> simp_all

theorem amountErrorsOf_eq_nil {x : JSNum} (h : amountErrorsOf x = []) :
    jsIsNaN x = false ∧ jsLe x (.fin 0) = false := by
  rw [amountErrorsOf] at h
  by_cases h1 : jsIsNaN x = true
  · rw [if_pos h1] at h
    cases h
  · rw [if_neg h1] at h
    by_cases h2 : jsLe x (.fin 0) = true
    · rw [if_pos h2] at h
      cases h
    · exact ⟨by simpa using h1, by simpa using h2⟩

theorem fromErrorsOf_eq_nil {rates : CurrencyMap} {f : Option String}
    (hmiss : isParamMissing f = false) (h : fromErrorsOf rates f = []) :
    mapHas rates (f.getD "") = true := by
  rw [fromErrorsOf] at h
  by_cases h1 : isParamMissing f = false ∧ mapHas rates (f.getD "") = false
  · rw [if_pos h1] at h
    cases h
  · cases hb : mapHas rates (f.getD "") with
    | false => exact absurd ⟨hmiss, hb⟩ h1
    | true => rfl

theorem toErrorsOf_eq_nil {rates : CurrencyMap} {t : Option String}
    (hmiss : isParamMissing t = false) (h : toErrorsOf rates t = []) :
    mapHas rates (t.getD "") = true := by
  rw [toErrorsOf] at h
  by_cases h1 : isParamMissing t = false ∧ mapHas rates (t.getD "") = false
  · rw [if_pos h1] at h
    cases h
  · cases hb : mapHas rates (t.getD "") with
    | false => exact absurd ⟨hmiss, hb⟩ h1
    | true => rfl

theorem currencyErrorsOf_eq_nil {f t : Option String}
    (hmf : isParamMissing f = false) (hmt : isParamMissing t = false)
    (h : currencyErrorsOf f t = []) :
    f.getD "" = USD_CURRENCY ∨ t.getD "" = USD_CURRENCY := by
  rw [currencyErrorsOf] at h
  by_cases h1 : isParamMissing f = false ∧ isParamMissing t = false ∧
      f.getD "" ≠ USD_CURRENCY ∧ t.getD "" ≠ USD_CURRENCY
  · rw [if_pos h1] at h
    cases h
  · by_cases hf2 : f.getD "" = USD_CURRENCY
    · exact Or.inl hf2
    · by_cases ht2 : t.getD "" = USD_CURRENCY
      · exact Or.inr ht2
      · exact absurd ⟨hmf, hmt, hf2, ht2⟩ h1

/-- Inversion of a successful validation: what the code guarantees about
the returned request. -/
theorem validate_valid_inv {rates : CurrencyMap} {a f t : Option String}
    {d : ConversionRequest} (h : validateQueryParams rates a f t = .valid d) :
    isParamMissing a = false ∧ isParamMissing f = false ∧ isParamMissing t = false ∧
    d.amount = parseFloat (a.getD "") ∧ d.fromCur = f.getD "" ∧ d.toCur = t.getD "" ∧
    jsIsNaN d.amount = false ∧ jsLe d.amount (.fin 0) = false ∧
    mapHas rates d.fromCur = true ∧ mapHas rates d.toCur = true ∧
    (d.fromCur = USD_CURRENCY ∨ d.toCur = USD_CURRENCY) := by
  rw [validateQueryParams] at h
  by_cases hmiss : (missingList a f t).length > 0
  · rw [if_pos hmiss] at h
    cases h
  · rw [if_neg hmiss] at h
    have hm : missingList a f t = [] := List.eq_nil_of_length_eq_zero (by omega)
    obtain ⟨ha, hf, ht⟩ := missingList_flags hm
    by_cases herr : (amountErrorsOf (parseFloat (a.getD "")) ++ fromErrorsOf rates f ++
        toErrorsOf rates t ++ currencyErrorsOf f t).length > 0
    · rw [if_pos herr] at h
      cases h
    · rw [if_neg herr] at h
      have hnil : amountErrorsOf (parseFloat (a.getD "")) ++ fromErrorsOf rates f ++
          toErrorsOf rates t ++ currencyErrorsOf f t = [] :=
        List.eq_nil_of_length_eq_zero (by omega)
      rw [List.append_eq_nil, List.append_eq_nil, List.append_eq_nil] at hnil
      obtain ⟨⟨⟨h1, h2⟩, h3⟩, h4⟩ := hnil
      obtain ⟨hnan, hle⟩ := amountErrorsOf_eq_nil h1
      cases h
      refine ⟨ha, hf, ht, rfl, rfl, rfl, hnan, hle, ?_, ?_, ?_⟩
      · exact fromErrorsOf_eq_nil hf h2
      · exact toErrorsOf_eq_nil ht h3
      · exact currencyErrorsOf_eq_nil hf ht h4

theorem convert_from_usd (rates : CurrencyMap) (amount : JSNum) (toCur : String)
    (fr tr : ExchangeRateData) (hne : toCur ≠ USD_CURRENCY)
    (hf : mapGet rates USD_CURRENCY = some fr) (ht : mapGet rates toCur = some tr) :
    convert rates amount USD_CURRENCY toCur =
      .ok (roundToTwoDecimals (jsMul amount tr.rate)) := by
  rw [convert, if_neg (by exact fun hx => hne hx.symm)]
  rw [hf, ht]
  simp only []
  rw [if_neg (by simp)]
  simp

theorem convert_to_usd (rates : CurrencyMap) (amount : JSNum) (fromCur : String)
    (fr tr : ExchangeRateData) (hne : fromCur ≠ USD_CURRENCY)
    (hf : mapGet rates fromCur = some fr) (ht : mapGet rates USD_CURRENCY = some tr) :
    convert rates amount fromCur USD_CURRENCY =
      .ok (roundToTwoDecimals (jsDiv amount fr.rate)) := by
  rw [convert, if_neg hne]
  rw [hf, ht]
  simp only []
  rw [if_neg (by simp), if_neg hne]
  simp

theorem getEffectiveRate_from_usd (rates : CurrencyMap) (toCur : String)
    (fr tr : ExchangeRateData) (hne : toCur ≠ USD_CURRENCY)
    (hf : mapGet rates USD_CURRENCY = some fr) (ht : mapGet rates toCur = some tr) :
    getEffectiveRate rates USD_CURRENCY toCur = some tr.rate := by
  rw [getEffectiveRate, if_neg (by exact fun hx => hne hx.symm)]
  rw [hf, ht]
  simp only []
  simp

theorem getEffectiveRate_to_usd (rates : CurrencyMap) (fromCur : String)
    (fr tr : ExchangeRateData) (hne : fromCur ≠ USD_CURRENCY)
    (hf : mapGet rates fromCur = some fr) (ht : mapGet rates USD_CURRENCY = some tr) :
    getEffectiveRate rates fromCur USD_CURRENCY = some (jsDiv (.fin 1) fr.rate) := by
  rw [getEffectiveRate, if_neg hne]
  rw [hf, ht]
  simp only []
  rw [if_neg hne]
  simp

/- ---------- concrete fixtures for witnesses and counterexamples ---------- -/

/-- Modelled from the spec: the catalog entry for the anchor currency
(invariant: anchor present with rate 1.0). -/
def usdEntry : ExchangeRateData := ⟨USD_CURRENCY, .fin 1, some "2025-12-31"⟩

/-- Modelled from the spec: a foreign catalog entry with the rate 1.369
used by the spec's end-to-end scenarios. -/
def cadEntry : ExchangeRateData := ⟨"Canada-Dollar", .fin (mkRat 1369 1000), some "2025-12-31"⟩

/-- Modelled from the spec: a foreign catalog entry with a positive rate
below 1 (units of this currency per 1 unit of anchor). -/
def gbpEntry : ExchangeRateData := ⟨"United Kingdom-Pound", .fin (mkRat 4 5), some "2025-12-31"⟩

/-- Modelled from the spec: a two-entry catalog satisfying the stated
catalog invariants (the generated data module is not in the sources). -/
def testCat : CurrencyMap := [(USD_CURRENCY, usdEntry), ("Canada-Dollar", cadEntry)]

/-- Modelled from the spec: a catalog whose foreign rate is below 1. -/
def testCatPound : CurrencyMap := [(USD_CURRENCY, usdEntry), ("United Kingdom-Pound", gbpEntry)]

/-- A CSV accepted by the build step whose data rows contain an anchor
row with rate 2. -/
def csvAnchorRow : String :=
  "Record Date,Country - Currency Description,Exchange Rate,Effective Date,ISO\n2025-12-31,United States-Dollar,2,2025-12-31,USD"

/-- A CSV accepted by the build step with no anchor row. -/
def csvNoAnchor : String :=
  "Record Date,Country - Currency Description,Exchange Rate,Effective Date,ISO\n2025-12-31,Canada-Dollar,1.369,2025-12-31,CAD"

/-- The catalog the build step constructs from csvNoAnchor. -/
def catNoAnchorFold : CurrencyMap :=
  [("Canada-Dollar", ⟨"Canada-Dollar", .fin (mkRat 1369 1000), some "2025-12-31"⟩)]

/-- catNoAnchorFold after the anchor force-insert. -/
def catNoAnchorResult : CurrencyMap :=
  catNoAnchorFold ++ [(USD_CURRENCY, ⟨USD_CURRENCY, .fin 1, some "2025-12-31"⟩)]

/- ---------- claims ---------- -/

/-- Claim C1: for distinct currencies both present in the catalog, when
from is the anchor the conversion is round2(amount * toRate.rate) with
effective rate toRate.rate, and when to is the anchor it is
round2(amount / fromRate.rate) with effective rate 1 / fromRate.rate; the
effective rate is the unrounded rate in both cases. -/
theorem claim_C1 (rates : CurrencyMap) (amount : JSNum) (fromCur toCur : String)
    (fr tr : ExchangeRateData) (hne : fromCur ≠ toCur)
    (hf : mapGet rates fromCur = some fr) (ht : mapGet rates toCur = some tr) :
    (fromCur = USD_CURRENCY →
      convert rates amount fromCur toCur = .ok (roundToTwoDecimals (jsMul amount tr.rate)) ∧
      getEffectiveRate rates fromCur toCur = some tr.rate) ∧
    (toCur = USD_CURRENCY →
      convert rates amount fromCur toCur = .ok (roundToTwoDecimals (jsDiv amount fr.rate)) ∧
      getEffectiveRate rates fromCur toCur = some (jsDiv (.fin 1) fr.rate)) := by
  constructor
  · intro hF
    subst hF
    exact ⟨convert_from_usd rates amount toCur fr tr (Ne.symm hne) hf ht,
           getEffectiveRate_from_usd rates toCur fr tr (Ne.symm hne) hf ht⟩
  · intro hT
    subst hT
    exact ⟨convert_to_usd rates amount fromCur fr tr hne hf ht,
           getEffectiveRate_to_usd rates fromCur fr tr hne hf ht⟩

/-- Witness for claim C1 at the concrete catalog and the pair anchor to
Canada-Dollar. -/
theorem claim_C1_witness :
    (USD_CURRENCY ≠ "Canada-Dollar" ∧ mapGet testCat "Canada-Dollar" = some cadEntry) ∧
    convert testCat (.fin 100) USD_CURRENCY "Canada-Dollar" =
      .ok (roundToTwoDecimals (jsMul (.fin 100) cadEntry.rate)) :=
  ⟨⟨by decide, by decide⟩,
   ((claim_C1 testCat (.fin 100) USD_CURRENCY "Canada-Dollar" usdEntry cadEntry (by decide)
      (by decide) (by decide)).1 rfl).1⟩

/-- Claim C5: for every amount and every string, converting a currency to
itself returns the amount rounded to two decimals without consulting the
catalog and without any fault, and the effective rate is exactly 1. -/
theorem claim_C5 (rates : CurrencyMap) (amount : JSNum) (c : String) :
    convert rates amount c c = .ok (roundToTwoDecimals amount) ∧
    getEffectiveRate rates c c = some (.fin 1) := by
  constructor
  · rw [convert, if_pos rfl]
  · rw [getEffectiveRate, if_pos rfl]

/-- Modelled from the spec: round half away from zero. -/
def roundHalfAwayFromZero (y : ℚ) : ℤ :=
  if 0 ≤ y then ratFloor (ratAdd y (mkRat 1 2)) else -(ratFloor (ratAdd (-y) (mkRat 1 2)))

/-- Modelled from the spec: round-half-away-from-zero on value*100 then
divide by 100. -/
def specRound2 (q : ℚ) : ℚ := ratDiv ((roundHalfAwayFromZero (ratMul q 100) : ℤ) : ℚ) 100

/-- Counterexample to claim C4: at v = -2.505 the code rounds -250.5 up
to -250 (half toward positive infinity), so the result is -2.50, not the
-2.51 demanded by round-half-away-from-zero. -/
theorem claim_C4_counterexample :
    roundToTwoDecimals (.fin (mkRat (-501) 200)) ≠ .fin (specRound2 (mkRat (-501) 200)) := by
  decide

/-- Claim C4 as amended: the final result is Math.round(v*100)/100 where
Math.round rounds half toward positive infinity; this agrees with
round-half-away-from-zero for nonnegative values. -/
theorem claim_C4 (q : ℚ) :
    roundToTwoDecimals (.fin q) = .fin (((⌊q * 100 + 1/2⌋ : ℤ) : ℚ) / 100) ∧
    (0 ≤ q → roundToTwoDecimals (.fin q) = .fin (specRound2 q)) := by
  constructor
  · rw [roundToTwoDecimals_fin, round2q]
  · intro hq
    have hm : ratMul q 100 = q * 100 := ratMul_eq q 100
    have h2 : (mkRat 1 2 : ℚ) = 1/2 := by norm_num
    rw [roundToTwoDecimals_fin, round2q, specRound2, hm, roundHalfAwayFromZero,
      if_pos (mul_nonneg hq (by norm_num)), ratAdd_eq, ratFloor_eq, ratDiv_eq, h2]

/-- Witness for claim C4 at v = 0.025, a nonnegative midpoint. -/
theorem claim_C4_witness :
    (0 : ℚ) ≤ mkRat 1 40 ∧
    roundToTwoDecimals (.fin (mkRat 1 40)) = .fin (specRound2 (mkRat 1 40)) :=
  ⟨by decide, (claim_C4 (mkRat 1 40)).2 (by decide)⟩

/-- Counterexample to claim C8: isValidAmount is true at positive
infinity, which is not finite, so the claimed equivalence with finiteness
fails. -/
theorem claim_C8_counterexample :
    ¬ (isValidAmount JSNum.posInf = true ↔
       (jsFinite JSNum.posInf = true ∧ jsLt (JSNum.fin 0) JSNum.posInf = true)) := by
  decide

/-- Claim C8 as amended: isValidAmount is true exactly when the value is
not NaN and is greater than 0 (so also at positive infinity); it is false
at 0, at NaN, and at every negative value. -/
theorem claim_C8 :
    (∀ x : JSNum, isValidAmount x = true ↔ (jsIsNaN x = false ∧ jsLt (.fin 0) x = true)) ∧
    isValidAmount (.fin 0) = false ∧ isValidAmount .nan = false ∧
    (∀ q : ℚ, q < 0 → isValidAmount (.fin q) = false) := by
  refine ⟨?_, by decide, by decide, ?_⟩
  · intro x
    cases x <;> simp [isValidAmount, jsIsNaN, jsLt]
  · intro q hq
    simp [isValidAmount, jsIsNaN, jsLt]
    linarith

/-- Witness for claim C8 at the negative value -1. -/
theorem claim_C8_witness :
    ((-1 : ℚ) < 0) ∧ isValidAmount (.fin (-1)) = false :=
  ⟨by decide, claim_C8.2.2.2 (-1) (by decide)⟩

/-- If a number is neither NaN nor at most zero then it is greater than
zero in the JavaScript ordering. -/
theorem jsLt_zero_of {x : JSNum} (h1 : jsIsNaN x = false) (h2 : jsLe x (.fin 0) = false) :
    jsLt (.fin 0) x = true := by
  cases x with
  | nan => simp [jsIsNaN] at h1
  | posInf => rfl
  | negInf => simp [jsLe] at h2
  | fin q =>
    simp [jsLe] at h2
    simp [jsLt]
    linarith

/-- Counterexample to claim C2: the amount string Infinity passes
validation (parseFloat yields positive infinity, which is neither NaN nor
at most 0), yet the returned amount is not finite. -/
theorem claim_C2_counterexample :
    validateQueryParams testCat (some "Infinity") (some USD_CURRENCY) (some "Canada-Dollar") =
      .valid ⟨JSNum.posInf, USD_CURRENCY, "Canada-Dollar"⟩ ∧
    jsFinite JSNum.posInf = false := by
  decide

/-- Claim C2 as amended: a request that validates has an amount that is
not NaN and is strictly greater than 0 (finiteness is not guaranteed:
positive infinity passes), both currencies are catalog keys, and at least
one of them is the anchor. -/
theorem claim_C2 (rates : CurrencyMap) (a f t : Option String) (d : ConversionRequest)
    (h : validateQueryParams rates a f t = .valid d) :
    jsIsNaN d.amount = false ∧ jsLt (.fin 0) d.amount = true ∧
    mapHas rates d.fromCur = true ∧ mapHas rates d.toCur = true ∧
    (d.fromCur = USD_CURRENCY ∨ d.toCur = USD_CURRENCY) := by
  obtain ⟨_, _, _, _, _, _, hnan, hle, hhf, hht, hanch⟩ := validate_valid_inv h
  exact ⟨hnan, jsLt_zero_of hnan hle, hhf, hht, hanch⟩

/-- Witness for claim C2 at a concrete valid request. -/
theorem claim_C2_witness :
    validateQueryParams testCat (some "100") (some USD_CURRENCY) (some "Canada-Dollar") =
      .valid ⟨JSNum.fin 100, USD_CURRENCY, "Canada-Dollar"⟩ ∧
    (jsIsNaN (JSNum.fin 100) = false ∧ jsLt (.fin 0) (JSNum.fin 100) = true ∧
     mapHas testCat USD_CURRENCY = true ∧ mapHas testCat "Canada-Dollar" = true ∧
     (USD_CURRENCY = USD_CURRENCY ∨ ("Canada-Dollar" : String) = USD_CURRENCY)) :=
  ⟨by decide,
   claim_C2 testCat (some "100") (some USD_CURRENCY) (some "Canada-Dollar")
     ⟨JSNum.fin 100, USD_CURRENCY, "Canada-Dollar"⟩ (by decide)⟩

/-- Claim C6: whenever at least one of the three parameters is absent or
empty, validation returns exactly one error, on field parameters, whose
message lists every missing name joined by commas, and no other check
contributes an error. -/
theorem claim_C6 (rates : CurrencyMap) (a f t : Option String)
    (h : (isParamMissing a || isParamMissing f || isParamMissing t) = true) :
    validateQueryParams rates a f t =
      .invalid [⟨"parameters",
        "Missing required parameters: " ++ joinComma (missingList a f t)⟩] := by
  rw [validateQueryParams, if_pos (missingList_pos h)]

/-- Witness for claim C6 with all three parameters absent. -/
theorem claim_C6_witness :
    (isParamMissing none || isParamMissing none || isParamMissing none) = true ∧
    validateQueryParams testCat none none none =
      .invalid [⟨"parameters", "Missing required parameters: amount, from, to"⟩] :=
  ⟨by decide, claim_C6 testCat none none none (by decide)⟩

/-- Claim C7: on every request that validates, the converter's defensive
faults are unreachable: convert succeeds, getEffectiveRate is not null,
and the handler answers 200, never 500. -/
theorem claim_C7 (rates : CurrencyMap) (a f t : Option String) (d : ConversionRequest)
    (h : validateQueryParams rates a f t = .valid d) :
    (∃ c, convert rates d.amount d.fromCur d.toCur = .ok c) ∧
    (∃ r, getEffectiveRate rates d.fromCur d.toCur = some r) ∧
    (handleConvert rates a f t).status = 200 := by
  obtain ⟨_, _, _, _, _, _, _, _, hhf, hht, hanch⟩ := validate_valid_inv h
  obtain ⟨fr, hfr⟩ := mapGet_of_has hhf
  obtain ⟨tr, htr⟩ := mapGet_of_has hht
  have hconv : ∃ c, convert rates d.amount d.fromCur d.toCur = .ok c := by
    by_cases heq : d.fromCur = d.toCur
    · exact ⟨_, by rw [convert, if_pos heq]⟩
    · rcases hanch with hF | hT
      · have hfr2 : mapGet rates USD_CURRENCY = some fr := by rw [← hF]; exact hfr
        have hneq : d.toCur ≠ USD_CURRENCY := by
          rw [← hF]; exact fun hx => heq hx.symm
        refine ⟨roundToTwoDecimals (jsMul d.amount tr.rate), ?_⟩
        rw [hF]
        exact convert_from_usd rates d.amount d.toCur fr tr hneq hfr2 htr
      · have htr2 : mapGet rates USD_CURRENCY = some tr := by rw [← hT]; exact htr
        have hneq : d.fromCur ≠ USD_CURRENCY := by rw [← hT]; exact heq
        refine ⟨roundToTwoDecimals (jsDiv d.amount fr.rate), ?_⟩
        rw [hT]
        exact convert_to_usd rates d.amount d.fromCur fr tr hneq hfr htr2
  have hrate : ∃ r, getEffectiveRate rates d.fromCur d.toCur = some r := by
    by_cases heq : d.fromCur = d.toCur
    · exact ⟨_, by rw [getEffectiveRate, if_pos heq]⟩
    · rcases hanch with hF | hT
      · have hfr2 : mapGet rates USD_CURRENCY = some fr := by rw [← hF]; exact hfr
        have hneq : d.toCur ≠ USD_CURRENCY := by
          rw [← hF]; exact fun hx => heq hx.symm
        refine ⟨tr.rate, ?_⟩
        rw [hF]
        exact getEffectiveRate_from_usd rates d.toCur fr tr hneq hfr2 htr
      · have htr2 : mapGet rates USD_CURRENCY = some tr := by rw [← hT]; exact htr
        have hneq : d.fromCur ≠ USD_CURRENCY := by rw [← hT]; exact heq
        refine ⟨jsDiv (.fin 1) fr.rate, ?_⟩
        rw [hT]
        exact getEffectiveRate_to_usd rates d.fromCur fr tr hneq hfr htr2
  obtain ⟨c, hc⟩ := hconv
  refine ⟨⟨c, hc⟩, hrate, ?_⟩
  simp only [handleConvert, h, hc]

/-- Witness for claim C7 at a concrete valid request. -/
theorem claim_C7_witness :
    validateQueryParams testCat (some "150") (some "Canada-Dollar") (some USD_CURRENCY) =
      .valid ⟨JSNum.fin 150, "Canada-Dollar", USD_CURRENCY⟩ ∧
    ((∃ c, convert testCat (JSNum.fin 150) "Canada-Dollar" USD_CURRENCY = .ok c) ∧
     (∃ r, getEffectiveRate testCat "Canada-Dollar" USD_CURRENCY = some r) ∧
     (handleConvert testCat (some "150") (some "Canada-Dollar") (some USD_CURRENCY)).status = 200) :=
  ⟨by decide,
   claim_C7 testCat (some "150") (some "Canada-Dollar") (some USD_CURRENCY)
     ⟨JSNum.fin 150, "Canada-Dollar", USD_CURRENCY⟩ (by decide)⟩

theorem amountErrorsOf_field_sub (x : JSNum) :
    List.Sublist ((amountErrorsOf x).map ValidationError.field) ["amount"] := by
  rw [amountErrorsOf]
  split_ifs <;> simp

theorem fromErrorsOf_field_sub (rates : CurrencyMap) (f : Option String) :
    List.Sublist ((fromErrorsOf rates f).map ValidationError.field) ["from"] := by
  rw [fromErrorsOf]
  split_ifs <;> simp

theorem toErrorsOf_field_sub (rates : CurrencyMap) (t : Option String) :
    List.Sublist ((toErrorsOf rates t).map ValidationError.field) ["to"] := by
  rw [toErrorsOf]
  split_ifs <;> simp

theorem currencyErrorsOf_field_sub (f t : Option String) :
    List.Sublist ((currencyErrorsOf f t).map ValidationError.field) ["currencies"] := by
  rw [currencyErrorsOf]
  split_ifs <;> simp

/-- When the parsed amount is NaN or at most 0, the amount check yields a
single error on field amount with a nonempty message. -/
theorem amountErrorsOf_single {x : JSNum}
    (h : (jsIsNaN x || jsLe x (.fin 0)) = true) :
    ∃ m, amountErrorsOf x = [⟨"amount", m⟩] ∧ m ≠ "" := by
  rw [amountErrorsOf]
  by_cases h1 : jsIsNaN x = true
  · rw [if_pos h1]
    exact ⟨_, rfl, by decide⟩
  · have h1f : jsIsNaN x = false := by simpa using h1
    rw [h1f] at h
    have h2 : jsLe x (.fin 0) = true := by simpa using h
    rw [if_neg h1, if_pos h2]
    exact ⟨_, rfl, by decide⟩

/-- Claim C10: past the presence check, accumulated errors keep the fixed
field order amount, from, to, currencies with each field at most once,
and when the amount is invalid the handler's 400 message is the amount
error's message. -/
theorem claim_C10 (rates : CurrencyMap) (a f t : Option String) (errs : List ValidationError)
    (ha : isParamMissing a = false) (hf : isParamMissing f = false)
    (ht : isParamMissing t = false)
    (h : validateQueryParams rates a f t = .invalid errs) :
    List.Sublist (errs.map ValidationError.field) ["amount", "from", "to", "currencies"] ∧
    ((jsIsNaN (parseFloat (a.getD "")) || jsLe (parseFloat (a.getD "")) (.fin 0)) = true →
      ∃ m, errs.head? = some ⟨"amount", m⟩ ∧
        (handleConvert rates a f t).message = some m) := by
  have hv := h
  have hm : ¬ (missingList a f t).length > 0 := by
    intro hx
    rw [missingList, ha, hf, ht] at hx
    simp at hx
  rw [validateQueryParams, if_neg hm] at h
  by_cases herr : (amountErrorsOf (parseFloat (a.getD "")) ++ fromErrorsOf rates f ++
      toErrorsOf rates t ++ currencyErrorsOf f t).length > 0
  · rw [if_pos herr] at h
    injection h with he
    subst he
    constructor
    · have hs := (((amountErrorsOf_field_sub (parseFloat (a.getD ""))).append
        (fromErrorsOf_field_sub rates f)).append
          (toErrorsOf_field_sub rates t)).append (currencyErrorsOf_field_sub f t)
      simpa using hs
    · intro hbad
      obtain ⟨m, hm1, hm2⟩ := amountErrorsOf_single hbad
      refine ⟨m, ?_, ?_⟩
      · rw [hm1]
        rfl
      · simp only [handleConvert, hv, hm1]
        simp [hm2]
  · rw [if_neg herr] at h
    cases h

/-- Witness for claim C10 at a request with a negative amount. -/
theorem claim_C10_witness :
    validateQueryParams testCat (some "-5") (some USD_CURRENCY) (some "Canada-Dollar") =
      .invalid [⟨"amount", "Amount must be greater than 0"⟩] ∧
    (List.Sublist (([⟨"amount", "Amount must be greater than 0"⟩] :
        List ValidationError).map ValidationError.field)
        ["amount", "from", "to", "currencies"] ∧
     ((jsIsNaN (parseFloat ((some "-5").getD "")) ||
        jsLe (parseFloat ((some "-5").getD "")) (.fin 0)) = true →
       ∃ m, ([⟨"amount", "Amount must be greater than 0"⟩] :
           List ValidationError).head? = some ⟨"amount", m⟩ ∧
         (handleConvert testCat (some "-5") (some USD_CURRENCY)
           (some "Canada-Dollar")).message = some m)) :=
  ⟨by decide,
   claim_C10 testCat (some "-5") (some USD_CURRENCY) (some "Canada-Dollar")
     [⟨"amount", "Amount must be greater than 0"⟩] (by decide) (by decide) (by decide)
     (by decide)⟩

/-- Counterexample to claim C3: with a catalog rate of 0.8 (allowed by
the spec, which only requires positive rates), amount 0.01875 converts
anchor-to-foreign to 0.02 and back to 0.03, an error of 0.01125, more
than one cent. -/
theorem claim_C3_counterexample :
    convert testCatPound (.fin (mkRat 3 160)) USD_CURRENCY "United Kingdom-Pound" =
      .ok (.fin (mkRat 1 50)) ∧
    convert testCatPound (.fin (mkRat 1 50)) "United Kingdom-Pound" USD_CURRENCY =
      .ok (.fin (mkRat 3 100)) ∧
    ¬ (|(mkRat 3 100 : ℚ) - mkRat 3 160| ≤ mkRat 1 100) := by
  refine ⟨by decide, by decide, fun hcon => ?_⟩
  rw [abs_le] at hcon
  have h2 := hcon.2
  norm_num at h2

/-- Claim C3 as amended: the anchor round trip differs from the original
amount by at most 0.005 + 0.005/rate, hence by at most one cent whenever
the foreign rate is at least 1; rates below 1 can exceed one cent. -/
theorem claim_C3 (rates : CurrencyMap) (X : String) (eU eX : ExchangeRateData) (a r : ℚ)
    (hX : X ≠ USD_CURRENCY) (hU : mapGet rates USD_CURRENCY = some eU)
    (hXg : mapGet rates X = some eX) (hrate : eX.rate = .fin r)
    (hr : 0 < r) (_ha : 0 < a) :
    convert rates (.fin a) USD_CURRENCY X = .ok (.fin (round2q (a * r))) ∧
    convert rates (.fin (round2q (a * r))) X USD_CURRENCY =
      .ok (.fin (round2q (round2q (a * r) / r))) ∧
    |round2q (round2q (a * r) / r) - a| ≤ 1/200 + 1/(200 * r) ∧
    (1 ≤ r → |round2q (round2q (a * r) / r) - a| ≤ 1/100) := by
  have h1 : convert rates (.fin a) USD_CURRENCY X =
      .ok (roundToTwoDecimals (jsMul (.fin a) eX.rate)) :=
    convert_from_usd rates (.fin a) X eU eX hX hU hXg
  rw [hrate, jsMul_fin, roundToTwoDecimals_fin] at h1
  have h2 : convert rates (.fin (round2q (a * r))) X USD_CURRENCY =
      .ok (roundToTwoDecimals (jsDiv (.fin (round2q (a * r))) eX.rate)) :=
    convert_to_usd rates (.fin (round2q (a * r))) X eX eU hX hXg hU
  rw [hrate, jsDiv_fin _ _ (ne_of_gt hr), roundToTwoDecimals_fin] at h2
  have hb1 : |round2q (a * r) - a * r| ≤ 1/200 := abs_round2q_sub_le (a * r)
  have hc1 : |round2q (round2q (a * r) / r) - round2q (a * r) / r| ≤ 1/200 :=
    abs_round2q_sub_le _
  have hd : |round2q (a * r) / r - a| ≤ 1/(200 * r) := by
    have he : round2q (a * r) / r - a = (round2q (a * r) - a * r) / r := by
      field_simp
      ring
    rw [he, abs_div, abs_of_pos hr]
    have h3 : |round2q (a * r) - a * r| / r ≤ (1/200) / r :=
      (div_le_div_iff_of_pos_right hr).mpr hb1
    have h4 : (1/200 : ℚ) / r = 1/(200 * r) := by
      rw [div_div]
    rw [h4] at h3
    exact h3
  have htri : |round2q (round2q (a * r) / r) - a| ≤
      |round2q (round2q (a * r) / r) - round2q (a * r) / r| + |round2q (a * r) / r - a| :=
    abs_sub_le _ _ _
  refine ⟨h1, h2, by linarith, ?_⟩
  intro hr1
  have h5 : (1 : ℚ)/(200 * r) ≤ 1/200 := by
    apply one_div_le_one_div_of_le (by norm_num)
    linarith
  linarith

/-- Witness for claim C3 at the concrete catalog with the Canada-Dollar
rate 1.369, which is at least 1, and amount 100. -/
theorem claim_C3_witness :
    (0 : ℚ) < mkRat 1369 1000 ∧ (1 : ℚ) ≤ mkRat 1369 1000 ∧
    convert testCat (.fin 100) USD_CURRENCY "Canada-Dollar" =
      .ok (.fin (round2q (100 * mkRat 1369 1000))) ∧
    |round2q (round2q (100 * mkRat 1369 1000) / mkRat 1369 1000) - 100| ≤ 1/100 := by
  have happ := claim_C3 testCat "Canada-Dollar" usdEntry cadEntry 100 (mkRat 1369 1000)
    (by decide) (by decide) (by decide) (by decide) (by decide) (by decide)
  exact ⟨by decide, by decide, happ.1, happ.2.2.2 (by decide)⟩

/-- Counterexample to claim C9: a source CSV whose rows include an anchor
row with rate 2 is accepted by the build step, and the catalog then
stores the anchor with rate 2, not 1.0 (the force-insert only happens
when the anchor is absent). -/
theorem claim_C9_counterexample :
    convertCSVToJSON csvAnchorRow =
      .ok [(USD_CURRENCY, ⟨USD_CURRENCY, .fin 2, some "2025-12-31"⟩)] ∧
    (JSNum.fin 2 : JSNum) ≠ .fin 1 := by
  decide

/-- Claim C9 as amended: the catalog built from every accepted CSV always
contains the anchor currency, and its rate is exactly 1.0 whenever the
accepted source rows contribute no anchor entry. -/
theorem claim_C9 (csv : String) (m : CurrencyMap) (h : convertCSVToJSON csv = .ok m) :
    mapHas m USD_CURRENCY = true ∧
    (∀ m0 : CurrencyMap, m = forceInsertUSD m0 → mapHas m0 USD_CURRENCY = false →
      mapGet m USD_CURRENCY = some ⟨USD_CURRENCY, .fin 1, some "2025-12-31"⟩) := by
  constructor
  · simp only [convertCSVToJSON] at h
    split at h
    · injection h with he
      rw [← he]
      exact forceInsertUSD_has _
    · cases h
  · intro m0 hm0 habs
    rw [hm0]
    exact forceInsertUSD_get_of_absent m0 habs

/-- Witness for claim C9 on a CSV with no anchor row. -/
theorem claim_C9_witness :
    convertCSVToJSON csvNoAnchor = .ok catNoAnchorResult ∧
    mapHas catNoAnchorResult USD_CURRENCY = true ∧
    mapGet catNoAnchorResult USD_CURRENCY =
      some ⟨USD_CURRENCY, .fin 1, some "2025-12-31"⟩ :=
  ⟨by decide, (claim_C9 csvNoAnchor catNoAnchorResult (by decide)).1,
   (claim_C9 csvNoAnchor catNoAnchorResult (by decide)).2 catNoAnchorFold (by decide)
     (by decide)⟩
